import Mathlib

/-!
Verification of the podcast show-notes generator (`src/utils.js`,
`src/generator.js`).

Strings are modelled as `List Char` (`Str`); each JavaScript helper is
translated into an executable Lean function operating on `Str`.  JavaScript
`toLowerCase`/`toUpperCase` are modelled on the ASCII range (the only range
the repository's data exercises); `Char.toLower` in core Lean is exactly
that function.  The `TIME_FINDER` regular expression is modelled by an
explicit leftmost-match scanner with the same alternative ordering and
greediness as the JavaScript engine.
-/

namespace PodcastSeo

abbrev Str := List Char

/-- Convert a Lean string literal to the `List Char` representation. -/
def S (s : String) : Str := s.data

/-- JavaScript `\s` / `trim` whitespace, restricted to the code points the
repository's inputs can contain. -/
def isWs (c : Char) : Bool :=
  c = ' ' || c = '\t' || c = '\n' || c = '\r' ||
  c = '\x0b' || c = '\x0c' || c = ' '

/-- JavaScript `String.prototype.trim`. -/
def trimStr (s : Str) : Str :=
  ((s.dropWhile isWs).reverse.dropWhile isWs).reverse

def isDigitCh (c : Char) : Bool := '0' ≤ c && c ≤ '9'

def digitVal (c : Char) : Nat := c.toNat - '0'.toNat

/-- JavaScript `toLowerCase` on one character (ASCII model). -/
def lowCh (c : Char) : Char := Char.toLower c

/-- JavaScript `toUpperCase` on one character (ASCII model). -/
def upCh (c : Char) : Char :=
  if 97 ≤ c.toNat ∧ c.toNat ≤ 122 then Char.ofNat (c.toNat - 32) else c

/-- JavaScript `s.toLowerCase()`. -/
def lcStr (s : Str) : Str := s.map lowCh

/-- JavaScript `s.toUpperCase()`. -/
def ucStr (s : Str) : Str := s.map upCh

/-- `String(n)` for a natural number. -/
def natToStr (n : Nat) : Str := (Nat.repr n).data

/-- `String(n).padStart(2, "0")`. -/
def pad2 (n : Nat) : Str := if n < 10 then '0' :: natToStr n else natToStr n

/-- `s.replace(/\s+/g, " ")`: every maximal whitespace run becomes one
space.  (`utils.js`, the per-line normalization in `parseTimestamps`.) -/
def collapseAllWs : Str → Str
  | [] => []
  | c :: rest =>
    if isWs c then
      match rest with
      | [] => [' ']
      | c2 :: _ => if isWs c2 then collapseAllWs rest else ' ' :: collapseAllWs rest
    else c :: collapseAllWs rest

/-- `s.split(/\r?\n/)` (lone `\r` is not a separator). -/
def splitLines : Str → List Str
  | [] => [[]]
  | '\r' :: '\n' :: rest => [] :: splitLines rest
  | '\n' :: rest => [] :: splitLines rest
  | c :: rest =>
    match splitLines rest with
    | [] => [[c]]
    | l :: ls => (c :: l) :: ls

/-- `s.split(sep)` for a one-character separator. -/
def splitOnCh (sep : Char) : Str → List Str
  | [] => [[]]
  | c :: rest =>
    let r := splitOnCh sep rest
    if c = sep then [] :: r
    else
      match r with
      | [] => [[c]]
      | l :: ls => (c :: l) :: ls

/-- Attempt of the `H:MM:SS` alternative of `TIME_FINDER` with a two-digit
hour (the greedy first try of `\d{1,2}`).  Returns `(h, m, s, rest)` where
`rest` is the text after the matched token. -/
def matchHMS2 : Str → Option (Nat × Nat × Nat × Str)
  | d1 :: d2 :: ':' :: m1 :: m2 :: ':' :: s1 :: s2 :: rest =>
    if isDigitCh d1 && isDigitCh d2 && isDigitCh m1 && isDigitCh m2 &&
       isDigitCh s1 && isDigitCh s2 then
      some (digitVal d1 * 10 + digitVal d2,
            digitVal m1 * 10 + digitVal m2,
            digitVal s1 * 10 + digitVal s2, rest)
    else none
  | _ => none

/-- `H:MM:SS` alternative with a one-digit hour (the backtracked try). -/
def matchHMS1 : Str → Option (Nat × Nat × Nat × Str)
  | d1 :: ':' :: m1 :: m2 :: ':' :: s1 :: s2 :: rest =>
    if isDigitCh d1 && isDigitCh m1 && isDigitCh m2 &&
       isDigitCh s1 && isDigitCh s2 then
      some (digitVal d1, digitVal m1 * 10 + digitVal m2,
            digitVal s1 * 10 + digitVal s2, rest)
    else none
  | _ => none

/-- `M:SS` alternative with a two-digit minute (greedy first try). -/
def matchMS2 : Str → Option (Nat × Nat × Nat × Str)
  | d1 :: d2 :: ':' :: s1 :: s2 :: rest =>
    if isDigitCh d1 && isDigitCh d2 && isDigitCh s1 && isDigitCh s2 then
      some (0, digitVal d1 * 10 + digitVal d2, digitVal s1 * 10 + digitVal s2, rest)
    else none
  | _ => none

/-- `M:SS` alternative with a one-digit minute. -/
def matchMS1 : Str → Option (Nat × Nat × Nat × Str)
  | d1 :: ':' :: s1 :: s2 :: rest =>
    if isDigitCh d1 && isDigitCh s1 && isDigitCh s2 then
      some (0, digitVal d1, digitVal s1 * 10 + digitVal s2, rest)
    else none
  | _ => none

/-- One attempt of `TIME_FINDER` at a fixed position: the `H:MM:SS`
alternative first (greedy hour), then the `M:SS` alternative. -/
def matchTimeAt (s : Str) : Option (Nat × Nat × Nat × Str) :=
  match matchHMS2 s with
  | some r => some r
  | none =>
    match matchHMS1 s with
    | some r => some r
    | none =>
      match matchMS2 s with
      | some r => some r
      | none => matchMS1 s

/-- Leftmost match of `TIME_FINDER` (`line.match(TIME_FINDER)`): scan
positions left to right; at each position try the alternatives in order.
Returns the parsed `(h, m, s)` and the text after the matched token
(`line.slice(idx + m[0].length)`; the leftmost-match position is also the
first occurrence of the matched text, so `indexOf` returns it). -/
def findTime : Str → Option (Nat × Nat × Nat × Str)
  | [] => none
  | c :: rest =>
    match matchTimeAt (c :: rest) with
    | some r => some r
    | none => findTime rest

/-- `formatClock` (`utils.js`): canonical clock rendering of the matched
components. -/
def formatClock (h m s : Nat) : Str :=
  if h > 0 then natToStr h ++ ':' :: pad2 m ++ ':' :: pad2 s
  else natToStr m ++ ':' :: pad2 s

/-- Code points removed by `stripEmoji` (`utils.js`): the regex ranges
`✀-➿`, `️`, `-` and the surrogate-pair ranges
`\uD83C/\uD83D[\uDC00-\uDFFF]`, `\uD83E[\uDD00-\uDFFF]` decoded to scalar
values. -/
def isEmojiCh (c : Char) : Bool :=
  (0x2700 ≤ c.toNat && c.toNat ≤ 0x27BF) || c.toNat = 0xFE0F ||
  (0xE000 ≤ c.toNat && c.toNat ≤ 0xF8FF) ||
  (0x1F000 ≤ c.toNat && c.toNat ≤ 0x1F7FF) ||
  (0x1F900 ≤ c.toNat && c.toNat ≤ 0x1FBFF)

/-- `stripEmoji` (`utils.js`). -/
def stripEmoji (s : Str) : Str := trimStr (s.filter fun c => !isEmojiCh c)

/-- `s.replace(/\s{2,}/g, " ")`: whitespace runs of length at least two
become one space; a single whitespace character is kept as-is.  The flag
records whether the current character continues a run. -/
def collapse2Aux (inRun : Bool) : Str → Str
  | [] => []
  | c :: rest =>
    if isWs c then
      match rest with
      | c2 :: _ =>
        if isWs c2 then collapse2Aux true rest
        else if inRun then ' ' :: collapse2Aux false rest
        else c :: collapse2Aux false rest
      | [] => if inRun then [' '] else [c]
    else c :: collapse2Aux false rest

def collapse2 (s : Str) : Str := collapse2Aux false s

/-- Trailing-punctuation class of `tidyLabel`'s first replace:
`[:;,.!?-]`. -/
def isTrailPunct (c : Char) : Bool :=
  c = ':' || c = ';' || c = ',' || c = '.' || c = '!' || c = '?' || c = '-'

/-- `s.replace(/\s*[:;,.!?-]+\s*$/g, "")`: remove the maximal suffix made of
optional whitespace, at least one punctuation mark, optional whitespace. -/
def stripTrailPunct (s : Str) : Str :=
  let r := s.reverse
  let r1 := r.dropWhile isWs
  let r2 := r1.dropWhile isTrailPunct
  if r2 = r1 then s else (r2.dropWhile isWs).reverse

def isDashCh (c : Char) : Bool := c = '—' || c = '–' || c = '-'

/-- `s.replace(/\s?[—–-]\s*$/g, "")`: one trailing dash (after optional
trailing whitespace), plus at most one whitespace character before it. -/
def stripTrailDash (s : Str) : Str :=
  let r := s.reverse
  let r1 := r.dropWhile isWs
  match r1 with
  | d :: r2 =>
    if isDashCh d then
      (match r2 with
       | w :: r3 => if isWs w then r3.reverse else r2.reverse
       | [] => [])
    else s
  | [] => s

/-- `\w` of the word-boundary `\b` in the acronym regex. -/
def isWordCh (c : Char) : Bool :=
  ('A' ≤ c && c ≤ 'Z') || ('a' ≤ c && c ≤ 'z') || ('0' ≤ c && c ≤ '9') || c = '_'

/-- Group a string into maximal runs of characters with the same value of
`p`; each run is tagged with that value. -/
def groupRuns (p : Char → Bool) : Str → List (Bool × Str)
  | [] => []
  | c :: rest =>
    match groupRuns p rest with
    | [] => [(p c, [c])]
    | (b, run) :: more =>
      if p c = b then (b, c :: run) :: more else (p c, [c]) :: (b, run) :: more

/-- The acronym whitelist of `toSentenceCasePreserveAcronyms`
(`utils.js`). -/
def acronyms : List Str :=
  [S "nbl1", S "nba", S "wnbl", S "afl", S "mma", S "ai", S "phd",
   S "api", S "ui", S "ux", S "sql", S "http", S "https"]

/-- `sentence.replace(/\b(...)\b/gi, m => m.toUpperCase())`: a match needs a
word boundary on both sides, so it can only cover a whole maximal `\w` run;
such a run is uppercased exactly when it equals one of the alternatives
case-insensitively. -/
def applyAcronyms (s : Str) : Str :=
  ((groupRuns isWordCh s).map fun br =>
    if br.1 && decide (lcStr br.2 ∈ acronyms) then ucStr br.2 else br.2).flatten

/-- `toSentenceCasePreserveAcronyms` (`utils.js`). -/
def toSentenceCasePreserveAcronyms (s : Str) : Str :=
  let trimmed := trimStr s
  match trimmed with
  | [] => []
  | c :: rest => applyAcronyms (upCh (lowCh c) :: lcStr rest)

/-- `tidyLabel` (`utils.js`). -/
def tidyLabel (s : Str) : Str :=
  match s with
  | [] => S "Segment"
  | _ =>
    let s1 := stripTrailPunct (collapse2 s)
    let s2 := stripTrailDash s1
    let s3 := toSentenceCasePreserveAcronyms s2
    let s4 := trimStr s3
    if s4 = [] then S "Segment" else s4

/-- Leading separators stripped from a label in `parseTimestamps`:
`/^[)\]\-:–—|>.\s]+/`. -/
def isLabelSep (c : Char) : Bool :=
  c = ')' || c = ']' || c = '-' || c = ':' || c = '–' || c = '—' ||
  c = '|' || c = '>' || c = '.' || isWs c

/-- A normalized chapter entry (`{ time, seconds, label }`). -/
structure Entry where
  time : Str
  seconds : Nat
  label : Str
deriving DecidableEq, Repr

/-- The options bag of `parseTimestamps`. -/
structure ParseOpts where
  keepEmoji : Bool := false
  collapseConsecutiveDuplicateLabels : Bool := true
deriving DecidableEq, Repr

/-- The per-line body of the `parseTimestamps` loop: normalize whitespace,
find the first time token, build the entry; `none` when the line has no
time match (the line is skipped). -/
def parseLine (keepEmoji : Bool) (raw : Str) : Option Entry :=
  let line := collapseAllWs raw
  match findTime line with
  | none => none
  | some (h, m, s, rest) =>
    let label0 := rest.dropWhile isLabelSep
    let label1 := if keepEmoji then label0 else stripEmoji label0
    some ⟨formatClock h m s, h * 3600 + m * 60 + s, tidyLabel label1⟩

/-- The candidate lines of `parseTimestamps`: the RTF branch splits on
backslashes, removes braces, and keeps only time-bearing fragments; the
plain branch splits on newlines, trims, and drops empty lines. -/
def candidateLines (raw : Str) : List Str :=
  if (S "\x7b\\rtf").isPrefixOf (trimStr raw) then
    (((splitOnCh '\\' raw).map fun l =>
        trimStr (l.filter fun c => !(c.toNat = 123 || c.toNat = 125))).filter
      fun l => (findTime l).isSome)
  else
    ((splitLines raw).map trimStr).filter fun l => l ≠ []

/-- The consecutive-duplicate filter of `parseTimestamps`:
`items.filter((it, i, arr) => i === 0 ||
   it.label.toLowerCase() !== arr[i-1].label.toLowerCase())`.
`prev` is the element at index `i - 1` of the original array. -/
def collapseAux (prev : Entry) : List Entry → List Entry
  | [] => []
  | e :: rest =>
    (if lcStr e.label = lcStr prev.label then [] else [e]) ++ collapseAux e rest

def collapseFilter : List Entry → List Entry
  | [] => []
  | e :: rest => e :: collapseAux e rest

/-- `parseTimestamps` (`utils.js`). -/
def parseTimestamps (raw : Str) (opts : ParseOpts) : List Entry :=
  let items := (candidateLines raw).filterMap (parseLine opts.keepEmoji)
  if opts.collapseConsecutiveDuplicateLabels then collapseFilter items else items

/-- JavaScript `Set` insertion: append the element unless already present. -/
def addUniq (acc : List Str) (x : Str) : List Str :=
  if x ∈ acc then acc else acc ++ [x]

/-- Insertion-ordered deduplication, the iteration order of a JavaScript
`Set` built from a list. -/
def setOfList (l : List Str) : List Str := l.foldl addUniq []

/-- `t.replace(/\s+/g, "")`: drop every whitespace character. -/
def stripAllWs (s : Str) : Str := s.filter fun c => !isWs c

/-- Character class kept by the title split of `generateTags`:
`split(/[^A-Za-z0-9+]+/)` keeps runs of these. -/
def isTitleCh (c : Char) : Bool :=
  ('A' ≤ c && c ≤ 'Z') || ('a' ≤ c && c ≤ 'z') || ('0' ≤ c && c ≤ '9') || c = '+'

/-- `title.split(/[^A-Za-z0-9+]+/).filter(Boolean)`: the maximal runs of
title characters. -/
def titleTokens (s : Str) : List Str :=
  (groupRuns isTitleCh s).filterMap fun br => if br.1 then some br.2 else none

/-- The fixed anchor tags of `generateTags`. -/
def anchorTags : List Str :=
  [S "podcast", S "interview", S "australia", S "brisbane"]

/-- The input bag of `generateTags` (`{ title, theme, guests }`). -/
structure TagInput where
  title : Str := []
  theme : Str := []
  guests : List Str := []
deriving DecidableEq, Repr

/-- The result of `generateTags`: the tag array and the hashtag string. -/
structure TagResult where
  tags : List Str
  hashtags : Str
deriving DecidableEq, Repr

def joinWith (sep : Str) : List Str → Str
  | [] => []
  | [x] => x
  | x :: rest => x ++ sep ++ joinWith sep rest

/-- `generateTags` (`utils.js`): title tokens longer than two characters,
the theme, the guests, and the fixed anchors are inserted in that order
into a `Set`; the first 15 entries are kept and internal whitespace is
removed. -/
def generateTags (inp : TagInput) : TagResult :=
  let fromTitle := ((titleTokens inp.title).filter fun t => t.length > 2).map lcStr
  let fromTheme := if inp.theme ≠ [] then [lcStr inp.theme] else []
  let fromGuests := (inp.guests.map fun g => lcStr (trimStr g)).filter fun g => g ≠ []
  let base := setOfList (fromTitle ++ fromTheme ++ fromGuests ++ anchorTags)
  let tags := (base.take 15).map stripAllWs
  ⟨tags, joinWith [' '] (tags.map fun t => '#' :: t)⟩

/-- The SEO detail bag (all keys optional, absent modelled as empty). -/
structure SeoBag where
  mainKeyword : Str := []
  guestExpertise : Str := []
  targetAudience : Str := []
  keyTakeaways : Str := []
deriving DecidableEq, Repr

/-- `buildTags` (`generator.js`).  Note that `summary` is accepted but
never read by the function body. -/
def buildTags (brandName hosts guest _summary : Str) (seo : SeoBag) : TagResult :=
  let baseGuests :=
    if guest ≠ [] then ((splitOnCh ',' guest).map trimStr).filter (· ≠ []) else []
  let basicTitle :=
    trimStr (brandName ++ [' '] ++ (if guest ≠ [] then S "with " ++ guest else []))
  let gen := generateTags ⟨basicTitle, trimStr seo.mainKeyword, baseGuests⟩
  let extra :=
    ([lcStr brandName] ++
      (if hosts ≠ [] then (splitOnCh ',' hosts).map fun h => lcStr (trimStr h)
       else [])).filter (· ≠ [])
  let merged := setOfList (gen.tags ++ extra.map stripAllWs)
  ⟨merged, joinWith [' '] (merged.map fun t => '#' :: t)⟩

/-- The link map: the key-value pairs of the JavaScript object, in the
order they were supplied. -/
abbrev LinkMap := List (Str × Str)

/-- Property access on the link map (`links.youtube` etc.); a later
duplicate key overwrites an earlier one, as in a JavaScript object
literal. -/
def getLink : LinkMap → Str → Option Str
  | [], _ => none
  | (k, v) :: rest, key =>
    match getLink rest key with
    | some v' => some v'
    | none => if k = key then some v else none

/-- JavaScript truthiness of an optional string (`!!url`): present and
non-empty. -/
def truthy : Option Str → Bool
  | none => false
  | some s => s ≠ []

/-- The `rows` array of `renderPlatforms` (`generator.js`): the fixed
display list filtered by `!!url`. -/
def renderPlatformRows (links : LinkMap) : List (Str × Str) :=
  ([(S "YouTube", getLink links (S "youtube")),
    (S "Spotify", getLink links (S "spotify")),
    (S "Apple Podcasts", getLink links (S "apple")),
    (S "RSS", getLink links (S "anchor")),
    (S "Instagram", getLink links (S "instagram")),
    (S "TikTok", getLink links (S "tiktok")),
    (S "Facebook", getLink links (S "facebook")),
    (S "Patreon", getLink links (S "patreon"))]).filterMap fun p =>
    match p.2 with
    | some u => if u ≠ [] then some (p.1, u) else none
    | none => none

/-- `renderPlatforms` (`generator.js`). -/
def renderPlatforms (links : LinkMap) : Str :=
  let rows := renderPlatformRows links
  if rows = [] then S "_Links coming soon._"
  else joinWith (S "\n") (rows.map fun r => r.1 ++ S ": " ++ r.2)

/-- `capitalize` (`utils.js`). -/
def capitalize : Str → Str
  | [] => []
  | c :: rest => upCh c :: rest

/-- The default order of `appendCTA` (`utils.js`); `generateEpisodeMarkdown`
never passes `options.order`. -/
def ctaOrder : List Str :=
  [S "youtube", S "spotify", S "apple", S "patreon",
   S "instagram", S "tiktok", S "facebook", S "anchor"]

/-- The `linkLines` loop of `appendCTA`, accumulating in order. -/
def ctaLinkLines (links : LinkMap) : List Str :=
  ctaOrder.foldl
    (fun acc k =>
      match getLink links k with
      | some u => if u ≠ [] then acc ++ [capitalize k ++ S ": " ++ u] else acc
      | none => acc)
    []

/-- `appendCTA` (`utils.js`) as called by the generator (default order). -/
def appendCTA (description cta : Str) (links : LinkMap) : Str :=
  let linkLines := ctaLinkLines links
  joinWith (S "\n")
    (([trimStr description, [],
       (if cta ≠ [] then S "🎧 " ++ cta else []),
       (if linkLines ≠ [] then joinWith (S "\n") linkLines else [])]).filter
      (· ≠ []))

/-- `escapeMD` (`generator.js`): backslash-escape `*`, `_` and backtick. -/
def escapeMD (s : Str) : Str :=
  s.flatMap fun c =>
    if c = '*' || c = '_' || c.toNat = 96 then ['\\', c] else [c]

/-- `ensureSentence` (`generator.js`). -/
def ensureSentence (s : Str) : Str :=
  let t := collapseAllWs (trimStr s)
  if t = [] then []
  else if (t.getLast?).any (fun c => c = '.' || c = '!' || c = '?' || c = '…')
  then t else t ++ ['.']

/-- The bullet separators of `normaliseBullets`:
`split(/\r?\n|,|·|•|—|-{1,2}/)` with the alternatives tried in order. -/
def splitBullets : Str → List Str
  | [] => [[]]
  | '\r' :: '\n' :: rest => [] :: splitBullets rest
  | '\n' :: rest => [] :: splitBullets rest
  | ',' :: rest => [] :: splitBullets rest
  | '·' :: rest => [] :: splitBullets rest
  | '•' :: rest => [] :: splitBullets rest
  | '—' :: rest => [] :: splitBullets rest
  | '-' :: '-' :: rest => [] :: splitBullets rest
  | '-' :: rest => [] :: splitBullets rest
  | c :: rest =>
    match splitBullets rest with
    | [] => [[c]]
    | l :: ls => (c :: l) :: ls

/-- `normaliseBullets` (`generator.js`). -/
def normaliseBullets (raw : Str) : List Str :=
  (((splitBullets raw).map fun x =>
      toSentenceCasePreserveAcronyms (trimStr x)).filter
    fun x => x.length > 0).take 5

/-- `buildDescription` (`generator.js`). -/
def buildDescription (summary hosts guest brandName : Str) (seo : SeoBag) : Str :=
  let cleanSummary := ensureSentence summary
  let hostLine := if hosts ≠ [] then S "Hosted by **" ++ hosts ++ S "**" else []
  let guestLine :=
    if guest ≠ [] then
      (if hostLine ≠ [] then S " with **" ++ guest ++ S "**"
       else S "Featuring **" ++ guest ++ S "**")
    else []
  let intro :=
    trimStr (S "In this episode of **" ++ brandName ++ S "**, " ++
      joinWith [' '] (([hostLine, guestLine]).filter (· ≠ [])))
  let lines := ([intro, cleanSummary]).filter (· ≠ [])
  let lines :=
    if seo.keyTakeaways ≠ [] then
      let bullets := normaliseBullets seo.keyTakeaways
      if bullets ≠ [] then
        lines ++ [S "**Key Takeaways:**\n" ++
          joinWith (S "\n") (bullets.map fun b => S "- " ++ b)]
      else lines
    else lines
  joinWith (S "\n\n") lines

/-- `summaryToPhrase` (`generator.js`) with the default word limit 10. -/
def summaryToPhrase (s : Str) (wordLimit : Nat) : Str :=
  let words := ((splitOnCh ' ' (trimStr (collapseAllWs s))).filter
    (· ≠ [])).take wordLimit
  toSentenceCasePreserveAcronyms (joinWith [' '] words)

/-- `autoTitle` (`generator.js`). -/
def autoTitle (summary guest brandName : Str) : Str :=
  let first := summaryToPhrase summary 10
  let bits := [first] ++ (if guest ≠ [] then [S "with " ++ guest] else []) ++ [brandName]
  joinWith (S " | ") (bits.filter (· ≠ []))

/-- `renderChapters` (`generator.js`). -/
def renderChapters (chapters : List Entry) : Str :=
  if chapters = [] then S "_No timestamps provided._"
  else joinWith (S "\n")
    (chapters.map fun c => S "- " ++ c.time ++ S " — " ++ escapeMD c.label)

/-- The argument bag of `generateEpisodeMarkdown` (`generator.js`); `title`
is `Option` because an absent title falls back to `autoTitle`. -/
structure EpisodeRequest where
  title : Option Str := none
  guest : Str := []
  hosts : Str := []
  brandName : Str := S "The Searchers Podcast"
  cta : Str := []
  summary : Str := []
  timestampsRaw : Str := []
  links : LinkMap := []
  keepEmoji : Bool := false
  seo : SeoBag := {}

/-- The chapters computed inside `generateEpisodeMarkdown`. -/
def episodeChapters (req : EpisodeRequest) : List Entry :=
  parseTimestamps req.timestampsRaw { keepEmoji := req.keepEmoji }

/-- The tag list computed inside `generateEpisodeMarkdown` and rendered in
its tag section. -/
def episodeTags (req : EpisodeRequest) : List Str :=
  (buildTags req.brandName req.hosts req.guest req.summary req.seo).tags

/-- The resolved title (`title?.trim() || autoTitle(...)`). -/
def resolvedTitle (req : EpisodeRequest) : Str :=
  match req.title with
  | some t =>
    let t' := trimStr t
    if t' ≠ [] then t' else autoTitle req.summary req.guest req.brandName
  | none => autoTitle req.summary req.guest req.brandName

/-- `generateEpisodeMarkdown` (`generator.js`). -/
def generateEpisodeMarkdown (req : EpisodeRequest) : Str :=
  let chapters := episodeChapters req
  let descriptionBody :=
    buildDescription req.summary req.hosts req.guest req.brandName req.seo
  let bt := buildTags req.brandName req.hosts req.guest req.summary req.seo
  let platformsBlock := renderPlatforms req.links
  let withCTA := appendCTA platformsBlock req.cta req.links
  joinWith (S "\n\n")
    (([S "## 🎙️ **" ++ escapeMD (resolvedTitle req) ++ S "**",
       S "## 📝 Episode Description\n" ++ descriptionBody,
       S "## ⏱️ Chapters",
       renderChapters chapters,
       S "## 🔗 Listen & Subscribe",
       withCTA,
       S "## 🏷️ Tags",
       joinWith (S ", ") bt.tags,
       S "## 🔖 Hashtags",
       bt.hashtags]).filter (· ≠ []))

/-- Substring test (`needle` occurs contiguously in `hay`). -/
def containsSub (needle hay : Str) : Bool :=
  (List.tails hay).any fun t => needle.isPrefixOf t

/-! ## Claim-side (specification) definitions -/

/-- Canonical clock rendering as claim C5 words it: with hour 0 the hour
field is omitted and minutes and seconds are both zero-padded. -/
def claimPaddedClock (h m s : Nat) : Str :=
  if h = 0 then pad2 m ++ ':' :: pad2 s
  else natToStr h ++ ':' :: pad2 m ++ ':' :: pad2 s

/-- Canonical clock rendering as the code actually performs it (the
amended C5): with hour 0 the hour field is omitted, the minutes are
rendered unpadded and only the seconds are zero-padded; with a positive
hour the hour is unpadded and minutes and seconds are zero-padded. -/
def canonicalClock (h m s : Nat) : Str :=
  if h = 0 then natToStr m ++ ':' :: pad2 s
  else natToStr h ++ ':' :: pad2 m ++ ':' :: pad2 s

/-- Deduplication as claim C4 words it: an entry is dropped exactly when
its label equals, case-insensitively, the label of the immediately
preceding KEPT entry (`lastKept`). -/
def specDedupAux (lastKept : Entry) : List Entry → List Entry
  | [] => []
  | e :: rest =>
    if lcStr e.label = lcStr lastKept.label then specDedupAux lastKept rest
    else e :: specDedupAux e rest

def specDedup : List Entry → List Entry
  | [] => []
  | e :: rest => e :: specDedupAux e rest

/-! ## Helper lemmas -/

theorem collapseAux_eq_specDedupAux :
    ∀ (l : List Entry) (p q : Entry), lcStr p.label = lcStr q.label →
      collapseAux p l = specDedupAux q l := by
  intro l
  induction l with
  | nil => intro p q _; rfl
  | cons e rest ih =>
    intro p q hpq
    unfold collapseAux specDedupAux
    by_cases h : lcStr e.label = lcStr p.label
    · rw [if_pos h, if_pos (h.trans hpq)]
      simpa using ih e q (h.trans hpq)
    · rw [if_neg h, if_neg (fun hq => h (hq.trans hpq.symm))]
      simpa using ih e e rfl

theorem collapseFilter_eq_specDedup (l : List Entry) :
    collapseFilter l = specDedup l := by
  cases l with
  | nil => rfl
  | cons e rest =>
    show e :: collapseAux e rest = e :: specDedupAux e rest
    rw [collapseAux_eq_specDedupAux rest e e rfl]

theorem mem_collapseAux {e : Entry} :
    ∀ {l : List Entry} {prev : Entry}, e ∈ collapseAux prev l → e ∈ l := by
  intro l
  induction l with
  | nil => intro prev h; simp [collapseAux] at h
  | cons e2 rest ih =>
    intro prev h
    unfold collapseAux at h
    rcases List.mem_append.mp h with h1 | h2
    · by_cases hc : lcStr e2.label = lcStr prev.label
      · simp [hc] at h1
      · simp [hc] at h1
        simp [h1]
    · exact List.mem_cons_of_mem _ (ih h2)

theorem mem_collapseFilter {e : Entry} {l : List Entry}
    (h : e ∈ collapseFilter l) : e ∈ l := by
  cases l with
  | nil => simp [collapseFilter] at h
  | cons e2 rest =>
    unfold collapseFilter at h
    rcases List.mem_cons.mp h with h1 | h2
    · simp [h1]
    · exact List.mem_cons_of_mem _ (mem_collapseAux h2)

theorem tidyLabel_ne_nil (s : Str) : tidyLabel s ≠ [] := by
  unfold tidyLabel
  cases s with
  | nil => decide
  | cons c rest =>
    dsimp only
    split
    · decide
    · assumption

theorem toNat_ofNat_valid {n : Nat} (h : n.isValidChar) :
    (Char.ofNat n).toNat = n := by
  simp [Char.ofNat, h, Char.ofNatAux, Char.toNat, UInt32.toNat, BitVec.toNat_ofNatLt]

theorem lowCh_idem (c : Char) : lowCh (lowCh c) = lowCh c := by
  by_cases h : c.toNat ≥ 65 ∧ c.toNat ≤ 90
  · have hv : (c.toNat + 32).isValidChar := Or.inl (by omega)
    have h1 : lowCh c = Char.ofNat (c.toNat + 32) := by
      simp only [lowCh, Char.toLower]
      rw [if_pos h]
    rw [h1]
    simp only [lowCh, Char.toLower]
    rw [if_neg (by rw [toNat_ofNat_valid hv]; omega)]
  · have h1 : lowCh c = c := by
      simp only [lowCh, Char.toLower]
      rw [if_neg h]
    rw [h1, h1]

/-- A string is lowercase-fixed when `toLowerCase` leaves every character
unchanged. -/
def LCFixed (s : Str) : Prop := ∀ c ∈ s, lowCh c = c

theorem lcStr_eq_self {s : Str} (h : LCFixed s) : lcStr s = s := by
  induction s with
  | nil => rfl
  | cons c rest ih =>
    simp only [lcStr, List.map_cons, List.cons.injEq]
    exact ⟨h c (by simp), ih fun x hx => h x (List.mem_cons_of_mem _ hx)⟩

theorem lcFixed_lcStr (s : Str) : LCFixed (lcStr s) := by
  intro c hc
  rcases List.mem_map.mp hc with ⟨c0, _, rfl⟩
  exact lowCh_idem c0

theorem LCFixed.sub {s t : Str} (h : LCFixed s) (hsub : ∀ c ∈ t, c ∈ s) :
    LCFixed t := fun c hc => h c (hsub c hc)

theorem lcFixed_stripAllWs {s : Str} (h : LCFixed s) : LCFixed (stripAllWs s) :=
  h.sub fun _ hc => (List.mem_filter.mp hc).1

theorem mem_addUniq {y x : Str} {acc : List Str} (h : y ∈ addUniq acc x) :
    y ∈ acc ∨ y = x := by
  unfold addUniq at h
  by_cases hx : x ∈ acc
  · rw [if_pos hx] at h; exact Or.inl h
  · rw [if_neg hx] at h
    rcases List.mem_append.mp h with h1 | h2
    · exact Or.inl h1
    · exact Or.inr (List.mem_singleton.mp h2)

theorem nodup_addUniq {x : Str} {acc : List Str} (h : acc.Nodup) :
    (addUniq acc x).Nodup := by
  unfold addUniq
  by_cases hx : x ∈ acc
  · rwa [if_pos hx]
  · rw [if_neg hx]
    rw [List.nodup_append]
    refine ⟨h, List.nodup_singleton x, fun a ha hb => ?_⟩
    exact hx ((List.mem_singleton.mp hb) ▸ ha)

theorem mem_foldl_addUniq :
    ∀ {l : List Str} (acc : List Str) {y : Str},
      y ∈ l.foldl addUniq acc → y ∈ acc ∨ y ∈ l := by
  intro l
  induction l with
  | nil => intro acc y h; exact Or.inl h
  | cons x rest ih =>
    intro acc y h
    rcases ih (addUniq acc x) h with h1 | h2
    · rcases mem_addUniq h1 with h3 | h4
      · exact Or.inl h3
      · exact Or.inr (h4 ▸ List.mem_cons_self x rest)
    · exact Or.inr (List.mem_cons_of_mem _ h2)

theorem nodup_foldl_addUniq :
    ∀ {l acc : List Str}, acc.Nodup → (l.foldl addUniq acc).Nodup := by
  intro l
  induction l with
  | nil => intro acc h; exact h
  | cons x rest ih => intro acc h; exact ih (nodup_addUniq h)

theorem mem_setOfList {y : Str} {l : List Str} (h : y ∈ setOfList l) : y ∈ l := by
  rcases mem_foldl_addUniq [] h with h1 | h2
  · exact absurd h1 (List.not_mem_nil y)
  · exact h2

theorem nodup_setOfList (l : List Str) : (setOfList l).Nodup :=
  nodup_foldl_addUniq List.nodup_nil

theorem lcFixed_anchorTags : ∀ t ∈ anchorTags, LCFixed t := by
  unfold LCFixed
  decide

/-- Every tag produced by `generateTags` is lowercase-fixed. -/
theorem lcFixed_generateTags (inp : TagInput) :
    ∀ t ∈ (generateTags inp).tags, LCFixed t := by
  intro t ht
  unfold generateTags at ht
  dsimp only at ht
  rcases List.mem_map.mp ht with ⟨y, hy, rfl⟩
  apply lcFixed_stripAllWs
  have hy2 := mem_setOfList (List.Sublist.mem hy (List.take_sublist 15 _))
  rcases List.mem_append.mp hy2 with h12 | h4
  · rcases List.mem_append.mp h12 with h123 | h3
    · rcases List.mem_append.mp h123 with h1 | h2
      · rcases List.mem_map.mp h1 with ⟨tok, _, rfl⟩
        exact lcFixed_lcStr tok
      · by_cases hth : inp.theme ≠ []
        · rw [if_pos hth] at h2
          rw [List.mem_singleton.mp h2]
          exact lcFixed_lcStr _
        · rw [if_neg hth] at h2
          exact absurd h2 (List.not_mem_nil y)
    · rcases List.mem_map.mp (List.mem_of_mem_filter h3) with ⟨g, _, rfl⟩
      exact lcFixed_lcStr _
  · exact lcFixed_anchorTags y h4

/-- Every tag produced by `buildTags` is lowercase-fixed. -/
theorem lcFixed_buildTags (brandName hosts guest summary : Str) (seo : SeoBag) :
    ∀ t ∈ (buildTags brandName hosts guest summary seo).tags, LCFixed t := by
  intro t ht
  unfold buildTags at ht
  dsimp only at ht
  have ht2 := mem_setOfList ht
  rcases List.mem_append.mp ht2 with h1 | h2
  · exact lcFixed_generateTags _ t h1
  · rcases List.mem_map.mp h2 with ⟨y, hy, rfl⟩
    apply lcFixed_stripAllWs
    have hy2 := List.mem_of_mem_filter hy
    rcases List.mem_append.mp hy2 with h3 | h4
    · rw [List.mem_singleton.mp h3]
      exact lcFixed_lcStr _
    · by_cases hh : hosts ≠ []
      · rw [if_pos hh] at h4
        rcases List.mem_map.mp h4 with ⟨g, _, rfl⟩
        exact lcFixed_lcStr _
      · rw [if_neg hh] at h4
        exact absurd h4 (List.not_mem_nil y)

/-! ## Theorems -/

/-- C7: for every input, the final tag list of `buildTags` (the list
rendered in the document's tag section) contains no case-insensitive
duplicates: any two entries at distinct positions differ even after
lowercasing. -/
theorem c7_tags_caseinsensitive_nodup
    (brandName hosts guest summary : Str) (seo : SeoBag) :
    List.Pairwise (fun a b => lcStr a ≠ lcStr b)
      (buildTags brandName hosts guest summary seo).tags := by
  have hfix := lcFixed_buildTags brandName hosts guest summary seo
  have hnd : (buildTags brandName hosts guest summary seo).tags.Nodup := by
    unfold buildTags
    dsimp only
    exact nodup_setOfList _
  exact List.Pairwise.imp_of_mem
    (fun {a b} ha hb hne => by
      rw [lcStr_eq_self (hfix a ha), lcStr_eq_self (hfix b hb)]
      exact hne)
    hnd

/-- The end-to-end input of claim C1: the basketball/parenting summary, the
two timestamp lines, and an empty SEO bag. -/
def c1Request : EpisodeRequest :=
  { summary := S "A conversation about basketball and parenting.",
    timestampsRaw := S "0:00 Intro\n1:30 Discussion" }

/-- C1 counterexample: in the end-to-end run of claim C1, the tag list
rendered in the tag section of `generateEpisodeMarkdown` does NOT contain
the literal tag "basketball" — `buildTags` never reads the summary, so no
keyword matching against it happens. -/
theorem c1_no_basketball_tag :
    S "basketball" ∉ episodeTags c1Request ∧
    containsSub (S "basketball") (joinWith (S ", ") (episodeTags c1Request)) = false := by
  refine ⟨by decide, by decide⟩

/-- C1 amended: the rendered Markdown of the claim C1 run contains exactly
two chapter lines, in input order; the tag section holds the seven tags
derived from the brand title and the fixed anchors, and "basketball" is
not among them. -/
theorem c1_end_to_end_amended :
    episodeChapters c1Request =
      [{ time := S "0:00", seconds := 0, label := S "Intro" },
       { time := S "1:30", seconds := 90, label := S "Discussion" }] ∧
    ((splitLines (generateEpisodeMarkdown c1Request)).filter
      fun l => (S "- ").isPrefixOf l) =
      [S "- 0:00 — Intro", S "- 1:30 — Discussion"] ∧
    episodeTags c1Request =
      [S "the", S "searchers", S "podcast", S "interview",
       S "australia", S "brisbane", S "thesearcherspodcast"] ∧
    S "basketball" ∉ episodeTags c1Request := by
  refine ⟨by decide, by decide, by decide, by decide⟩

/-- The failing input of claim C2: a brand name with eleven distinct long
words.  `generateTags` caps its own output at 15, but `buildTags` then
appends the whitespace-stripped brand name after the cap. -/
def c2Request : EpisodeRequest :=
  { brandName :=
      S "alpha bravo charlie delta echo foxtrot golf hotel india juliet kilo",
    summary := S "x" }

/-- C2: the final tag list rendered in the document for the C2 input has 16
entries, exceeding the fixed cap of 15 claimed by the specification and by
the code's own comment ("keep under 15 total in utils"). -/
theorem c2_cap_exceeded :
    (episodeTags c2Request).length = 16 ∧ 15 < (episodeTags c2Request).length := by
  refine ⟨by decide, by decide⟩

/-- C3: `parseTimestamps` on the single line `"1:02:03 Intro"` returns
exactly one entry, with `time = "1:02:03"`, `seconds = 3723` and
`label = "Intro"`. -/
theorem c3_parse_hms_line :
    parseTimestamps (S "1:02:03 Intro") {} =
      [{ time := S "1:02:03", seconds := 3723, label := S "Intro" }] := by
  decide

/-- C5 counterexample: claim C5 says that when the hour is 0 the minutes
are zero-padded; the code renders `formatClock 0 0 5` as `"0:05"`, not
`"00:05"`, and a parsed entry exposes that time string. -/
theorem c5_minutes_not_padded :
    formatClock 0 0 5 = S "0:05" ∧
    claimPaddedClock 0 0 5 = S "00:05" ∧
    formatClock 0 0 5 ≠ claimPaddedClock 0 0 5 ∧
    (parseTimestamps (S "0:05 Intro") {}).map Entry.time = [S "0:05"] := by
  refine ⟨by decide, by decide, by decide, by decide⟩

/-- C4: with deduplication enabled (the default), `parseTimestamps` is the
keep-first policy of the claim: an entry is dropped exactly when its label
equals, case-insensitively, the label of the immediately preceding kept
entry (`specDedup`), so non-consecutive duplicates are retained. -/
theorem c4_dedup_keep_first (raw : Str) (ke : Bool) :
    parseTimestamps raw { keepEmoji := ke } =
      specDedup ((candidateLines raw).filterMap (parseLine ke)) := by
  unfold parseTimestamps
  simp only [if_pos]
  exact collapseFilter_eq_specDedup _

/-- C6: when no candidate line contains a recognizable clock pattern,
`parseTimestamps` returns the empty sequence (every unmatched line is
silently dropped, and no error is possible since the function is total). -/
theorem c6_no_match_empty (raw : Str) (opts : ParseOpts)
    (h : ∀ l ∈ candidateLines raw, findTime (collapseAllWs l) = none) :
    parseTimestamps raw opts = [] := by
  have hitems : (candidateLines raw).filterMap (parseLine opts.keepEmoji) = [] := by
    rw [List.filterMap_eq_nil_iff]
    intro l hl
    unfold parseLine
    dsimp only
    rw [h l hl]
  unfold parseTimestamps
  rw [hitems]
  cases opts.collapseConsecutiveDuplicateLabels <;> rfl

/-- C6 witness: a concrete two-line text with no clock pattern parses to
the empty sequence. -/
theorem c6_no_match_empty_witness :
    (∀ l ∈ candidateLines (S "hello\nno times here"),
        findTime (collapseAllWs l) = none) ∧
    parseTimestamps (S "hello\nno times here") {} = [] :=
  ⟨by decide, c6_no_match_empty (S "hello\nno times here") {} (by decide)⟩

/-- C8: every entry produced by `parseTimestamps` is well-formed: its
`seconds` field is the exact decomposition `h*3600 + m*60 + s` of the
matched components whose canonical rendering is its `time` field, and its
label is non-empty (defaulting to `"Segment"` inside `tidyLabel`). -/
theorem c8_entries_well_formed (raw : Str) (opts : ParseOpts) (e : Entry)
    (he : e ∈ parseTimestamps raw opts) :
    (∃ h m s, e.seconds = h * 3600 + m * 60 + s ∧ e.time = formatClock h m s) ∧
    e.label ≠ [] := by
  have hmem : e ∈ (candidateLines raw).filterMap (parseLine opts.keepEmoji) := by
    unfold parseTimestamps at he
    cases hc : opts.collapseConsecutiveDuplicateLabels <;> rw [hc] at he
    · simpa using he
    · exact mem_collapseFilter (by simpa using he)
  rcases List.mem_filterMap.mp hmem with ⟨l, _, hl⟩
  unfold parseLine at hl
  dsimp only at hl
  cases hft : findTime (collapseAllWs l) with
  | none => rw [hft] at hl; exact absurd hl (by simp)
  | some r =>
    obtain ⟨h, m, s, rest⟩ := r
    rw [hft] at hl
    simp only [Option.some.injEq] at hl
    subst hl
    exact ⟨⟨h, m, s, rfl, rfl⟩, tidyLabel_ne_nil _⟩

/-- C8 witness: the theorem applied to the concrete parse of
`"1:02:03 Intro"`. -/
theorem c8_entries_well_formed_witness :
    ({ time := S "1:02:03", seconds := 3723, label := S "Intro" } : Entry) ∈
        parseTimestamps (S "1:02:03 Intro") {} ∧
    ((∃ h m s, 3723 = h * 3600 + m * 60 + s ∧ S "1:02:03" = formatClock h m s) ∧
      S "Intro" ≠ []) :=
  ⟨by decide,
    c8_entries_well_formed (S "1:02:03 Intro") {}
      { time := S "1:02:03", seconds := 3723, label := S "Intro" } (by decide)⟩

/-- C5 amended: every clock string is rendered canonically from the matched
components, but with hour 0 the minutes are rendered unpadded (only the
seconds are zero-padded); with a positive hour the hour is unpadded and the
minutes and seconds are zero-padded. -/
theorem c5_format_canonical (h m s : Nat) :
    formatClock h m s = canonicalClock h m s := by
  by_cases h0 : h = 0
  · simp [formatClock, canonicalClock, h0]
  · simp [formatClock, canonicalClock, h0, Nat.pos_of_ne_zero h0]

set_option maxRecDepth 8192 in
/-- C9: the renderer backs every section with data or a placeholder: an
empty chapter list renders the "no timestamps provided" placeholder, a link
map with no platform links renders the "links coming soon" placeholder, and
the document generated from empty title/guest/hosts/summary/links never
contains the missing-value artifact "undefined" (and cannot crash: the
embedding is a total function). -/
theorem c9_placeholders_no_undefined :
    renderChapters [] = S "_No timestamps provided._" ∧
    renderPlatforms [] = S "_Links coming soon._" ∧
    containsSub (S "undefined") (generateEpisodeMarkdown {}) = false ∧
    containsSub (S "_No timestamps provided._") (generateEpisodeMarkdown {}) = true ∧
    containsSub (S "_Links coming soon._") (generateEpisodeMarkdown {}) = true := by
  refine ⟨by decide, by decide, by decide, by decide, by decide⟩

/-- The canonical (display name, key) order of the platforms block, as
claim C10 states it. -/
def specPlatformOrder : List (Str × Str) :=
  [(S "YouTube", S "youtube"), (S "Spotify", S "spotify"),
   (S "Apple Podcasts", S "apple"), (S "RSS", S "anchor"),
   (S "Instagram", S "instagram"), (S "TikTok", S "tiktok"),
   (S "Facebook", S "facebook"), (S "Patreon", S "patreon")]

/-- The platform rows as claim C10 words them: the canonical order filtered
to the keys whose value is present and truthy. -/
def specPlatformRowsOf (links : LinkMap) : List (Str × Str) :=
  specPlatformOrder.filterMap fun p =>
    match getLink links p.2 with
    | some u => if u ≠ [] then some (p.1, u) else none
    | none => none

/-- The canonical key order of the CTA block, as claim C10 states it. -/
def specCtaOrder : List Str :=
  [S "youtube", S "spotify", S "apple", S "patreon",
   S "instagram", S "tiktok", S "facebook", S "anchor"]

/-- The CTA link lines as claim C10 words them. -/
def specCtaLinesOf (links : LinkMap) : List Str :=
  specCtaOrder.filterMap fun k =>
    match getLink links k with
    | some u => if u ≠ [] then some (capitalize k ++ S ": " ++ u) else none
    | none => none

theorem foldl_append_filterMap (g : Str → Option Str)
    (f : List Str → Str → List Str)
    (hf : ∀ acc k, f acc k = match g k with | some x => acc ++ [x] | none => acc) :
    ∀ (l : List Str) (acc : List Str), l.foldl f acc = acc ++ l.filterMap g := by
  intro l
  induction l with
  | nil => intro acc; simp
  | cons k rest ih =>
    intro acc
    rw [List.foldl_cons, ih, hf]
    cases hg : g k with
    | none => simp [List.filterMap_cons, hg]
    | some x => simp [List.filterMap_cons, hg]

/-- C10: platform links render in the fixed canonical order of the code's
row list and of `appendCTA`'s default order, a missing or falsy value
produces no line, and the output depends only on the key-value mapping of
the supplied link object, not on the order its keys were supplied in. -/
theorem c10_canonical_link_order :
    (∀ links : LinkMap, renderPlatformRows links = specPlatformRowsOf links) ∧
    (∀ links : LinkMap, ctaLinkLines links = specCtaLinesOf links) ∧
    (∀ (d c : Str) (l₁ l₂ : LinkMap), (∀ k, getLink l₁ k = getLink l₂ k) →
      renderPlatforms l₁ = renderPlatforms l₂ ∧
      appendCTA d c l₁ = appendCTA d c l₂) := by
  refine ⟨fun links => rfl, fun links => ?_, fun d c l₁ l₂ h => ?_⟩
  · unfold ctaLinkLines specCtaLinesOf
    rw [foldl_append_filterMap
      (fun k =>
        match getLink links k with
        | some u => if u ≠ [] then some (capitalize k ++ S ": " ++ u) else none
        | none => none)
      _ (fun acc k => by
        cases hg : getLink links k with
        | none => simp [hg]
        | some u => by_cases hu : u = [] <;> simp [hg, hu])]
    simp only [List.nil_append]
    rfl
  · constructor
    · simp only [renderPlatforms, renderPlatformRows, h]
    · simp only [appendCTA, ctaLinkLines, h]

/-- Two supplies of the same links in different orders, for the C10
witness. -/
def linksSupplyA : LinkMap := [(S "spotify", S "sp"), (S "youtube", S "yt")]

def linksSupplyB : LinkMap := [(S "youtube", S "yt"), (S "spotify", S "sp")]

theorem getLink_supplyAB : ∀ k, getLink linksSupplyA k = getLink linksSupplyB k := by
  intro k
  simp only [linksSupplyA, linksSupplyB, getLink]
  by_cases h1 : S "youtube" = k <;> by_cases h2 : S "spotify" = k <;>
    simp [h1, h2]
  exact absurd (h1.trans h2.symm) (by decide)

/-- C10 witness: the order-independence conjunct applied to a concrete link
map supplied in two different orders. -/
theorem c10_canonical_link_order_witness :
    (∀ k, getLink linksSupplyA k = getLink linksSupplyB k) ∧
    (renderPlatforms linksSupplyA = renderPlatforms linksSupplyB ∧
      appendCTA (S "desc") [] linksSupplyA = appendCTA (S "desc") [] linksSupplyB) :=
  ⟨getLink_supplyAB,
    c10_canonical_link_order.2.2 (S "desc") [] linksSupplyA linksSupplyB getLink_supplyAB⟩

end PodcastSeo
